import Mathlib

/-!
Shallow embedding of the core of the OpenSlides datastore service:
the SQL write pipeline (`datastore/writer/postgresql_backend/
sql_database_backend_service.py`) and the migration engine core
(`datastore/migrations/core/base_migration.py` and
`datastore/migrations/core/migration_reader.py`).

Database tables are embedded as association lists keyed by their primary
key, SQL upserts as association-list updates, and the two service
collaborators whose code lives outside the embedded files (the event
translator and the model projection of `db_events.py`) as explicit
function parameters, so every theorem below holds for every such
collaborator.
-/

/-- JSON payload values carried by events, positions and models. The
embedded code treats payloads opaquely, so a flat value type suffices. -/
inductive JSONValue where
  | null : JSONValue
  | bool (b : Bool) : JSONValue
  | num (n : Int) : JSONValue
  | str (s : String) : JSONValue
deriving DecidableEq

/-- The event kinds of the datastore (`EVENT_TYPE` in
`sql_event_types.py`): create, update, delete, deletefields, listfields. -/
inductive EVENT_TYPE where
  | CREATE : EVENT_TYPE
  | UPDATE : EVENT_TYPE
  | DELETE : EVENT_TYPE
  | DELETE_FIELDS : EVENT_TYPE
  | LIST_FIELDS : EVENT_TYPE
deriving DecidableEq

/-- The error conditions raised by the embedded code: `BadCodingError`
(a caller defect) and `InvalidFormat` (an oversized or malformed key). -/
inductive DsError where
  | badCoding : DsError
  | invalidFormat (msg : String) : DsError
deriving DecidableEq

/-- Lookup in an association list (a Python dict / a SQL table keyed by
its first component). -/
def assocLookup {α : Type} (l : List (String × α)) (k : String) : Option α :=
  (l.find? (fun p => p.1 = k)).map (fun p => p.2)

/-- Update-or-append in an association list: replaces the value at the
first matching key, appends a fresh row otherwise (a SQL upsert / a
Python dict assignment). -/
def assocSet {α : Type} (l : List (String × α)) (k : String) (v : α) :
    List (String × α) :=
  match l with
  | [] => [(k, v)]
  | p :: rest => if p.1 = k then (k, v) :: rest else p :: assocSet rest k v

/-- A model snapshot row: its data dict, including the meta fields
`meta_deleted` and `meta_position`. -/
abbrev ModelRec := List (String × JSONValue)

/-- A row of the `positions` table. -/
structure PositionRow where
  position : Nat
  migration_index : Int
  user_id : Int
  information : JSONValue
deriving DecidableEq

/-- A row of the `events` table. -/
structure EventRow where
  id : Nat
  position : Nat
  fqid : String
  type : EVENT_TYPE
  data : JSONValue
  weight : Nat
deriving DecidableEq

/-- A row of the `collectionfields` table. -/
structure CollectionFieldRow where
  id : Nat
  collectionfield : String
  position : Nat
deriving DecidableEq

/-- The database state touched by `SqlDatabaseBackendService`: the six
tables of the conceptual layout plus the three serial id sequences of
postgres (`positions_position_seq`, `events_id_seq`,
`collectionfields_id_seq`). -/
structure DbState where
  positions : List PositionRow
  models : List (String × ModelRec)
  events : List EventRow
  collectionfields : List CollectionFieldRow
  events_to_collectionfields : List (Nat × Nat)
  id_sequences : List (String × Int)
  position_seq : Nat
  event_id_seq : Nat
  collectionfield_id_seq : Nat
deriving DecidableEq

def COLLECTION_MAX_LEN : Nat := 32

def FQID_MAX_LEN : Nat := 48

def COLLECTIONFIELD_MAX_LEN : Nat := 239

/-- `SqlDatabaseBackendService.reserve_next_ids`: validates the amount and
the collection name, then performs the single upsert
`insert into id_sequences (collection, id) values (collection, amount+1)
on conflict(collection) do update set id = id_sequences.id + excluded.id - 1
returning id` and derives the reserved block from the returned high-water
mark by subtraction, `list(range(new_max_id - amount, new_max_id))`. -/
def reserve_next_ids (st : DbState) (collection : String) (amount : Int) :
    Except DsError (List Int) × DbState :=
  if amount ≤ 0 then
    (.error (.invalidFormat ("amount must be >= 1, not " ++ toString amount)), st)
  else if COLLECTION_MAX_LEN < collection.length ∨ collection = "" then
    (.error (.invalidFormat ("collection length must be between 1 and " ++
      toString COLLECTION_MAX_LEN)), st)
  else
    match assocLookup st.id_sequences collection with
    | none =>
        let new_max_id : Int := amount + 1
        (.ok ((List.range amount.toNat).map (fun i : Nat => new_max_id - amount + (i : Int))),
         { st with id_sequences := st.id_sequences ++ [(collection, new_max_id)] })
    | some old =>
        let new_max_id : Int := old + (amount + 1) - 1
        (.ok ((List.range amount.toNat).map (fun i : Nat => new_max_id - amount + (i : Int))),
         { st with id_sequences := assocSet st.id_sequences collection new_max_id })

/-- A database state holding only an id sequence for `motion` standing
at 10, used to exercise the documented reservation example. -/
def reserveDemoState : DbState :=
  { positions := [], models := [], events := [], collectionfields := [],
    events_to_collectionfields := [], id_sequences := [("motion", 10)],
    position_seq := 1, event_id_seq := 1, collectionfield_id_seq := 1 }

/-- A migration event (`migrations/core/events.py`, whose data shapes are
modelled from the spec: `events.py` itself is not under `src/`). The five
kinds and their payloads follow section 4.1 of the specification: `create`
and `update` carry a field-to-value dict, `deleteFields` a field list,
`listUpdate` two field-to-value-list dicts `add` and `remove`, and
`delete` no payload. -/
inductive MigEvent where
  | create (fqid : String) (data : List (String × JSONValue)) : MigEvent
  | update (fqid : String) (data : List (String × JSONValue)) : MigEvent
  | deleteFields (fqid : String) (data : List String) : MigEvent
  | listUpdate (fqid : String) (add remove : List (String × List JSONValue)) : MigEvent
  | delete (fqid : String) : MigEvent
deriving DecidableEq

/-- The `type` attribute of a migration event. -/
def MigEvent.type : MigEvent → EVENT_TYPE
  | .create _ _ => EVENT_TYPE.CREATE
  | .update _ _ => EVENT_TYPE.UPDATE
  | .deleteFields _ _ => EVENT_TYPE.DELETE_FIELDS
  | .listUpdate _ _ _ => EVENT_TYPE.LIST_FIELDS
  | .delete _ => EVENT_TYPE.DELETE

/-- The `fqid` attribute of a migration event. -/
def MigEvent.fqid : MigEvent → String
  | .create fqid _ => fqid
  | .update fqid _ => fqid
  | .deleteFields fqid _ => fqid
  | .listUpdate fqid _ _ => fqid
  | .delete fqid => fqid

/-- `BaseMigration._filter_noop_events`: drops update events with an empty
data dict, list_update events all of whose `add` and `remove` values are
empty lists, and delete_fields events with an empty field list; every
other event is passed through. -/
def _filter_noop_events : List MigEvent → List MigEvent
  | [] => []
  | e :: rest =>
    match e with
    | .update _ data =>
        if data.isEmpty then _filter_noop_events rest
        else e :: _filter_noop_events rest
    | .listUpdate _ add remove =>
        if (add.map Prod.snd ++ remove.map Prod.snd).all List.isEmpty then
          _filter_noop_events rest
        else e :: _filter_noop_events rest
    | .deleteFields _ data =>
        if data.isEmpty then _filter_noop_events rest
        else e :: _filter_noop_events rest
    | _ => e :: _filter_noop_events rest

/-- The noop predicate of section 4.1 of the specification, stated per
event kind: an update with an empty diff, a list_update whose `add` and
`remove` carry no values for any field, and a delete_fields with an empty
field list are noops; a create or delete never is. -/
def isNoopEvent : MigEvent → Bool
  | .update _ data => data.isEmpty
  | .listUpdate _ add remove => (add.map Prod.snd ++ remove.map Prod.snd).all List.isEmpty
  | .deleteFields _ data => data.isEmpty
  | .create _ _ => false
  | .delete _ => false

/-- The accumulator loop of `BaseMigration.order_events`: yield create
events immediately, queue every other event, and yield the queue at the
end. -/
def orderEventsAux : List MigEvent → List MigEvent → List MigEvent
  | [], queue => queue
  | e :: rest, queue =>
      if e.type = EVENT_TYPE.CREATE then e :: orderEventsAux rest queue
      else orderEventsAux rest (queue ++ [e])

/-- `BaseMigration.order_events`: create events first (stable), then all
remaining events in their original relative order. -/
def order_events (events : List MigEvent) : List MigEvent :=
  orderEventsAux events []

/-- `BaseMigration._set_model_status`: scan the events of the position in
order; for each create or delete event record its type for its fqid,
unless the status already recorded for that fqid is delete. -/
def _set_model_status (events : List MigEvent) : String → Option EVENT_TYPE :=
  events.foldl
    (fun ms e =>
      if (e.type = EVENT_TYPE.CREATE ∨ e.type = EVENT_TYPE.DELETE) ∧
          ms e.fqid ≠ some EVENT_TYPE.DELETE then
        fun f => if f = e.fqid then some e.type else ms f
      else ms)
    (fun _ => none)

/-- `BaseMigration.will_exist`: the new accessor reports the model as not
deleted and this position's model status for the fqid is not delete, or
that model status is create. The new accessor is passed as its
`model_not_deleted` query. -/
def will_exist (new_accessor_model_not_deleted : String → Bool)
    (model_status : String → Option EVENT_TYPE) (fqid : String) : Bool :=
  (new_accessor_model_not_deleted fqid &&
      decide (model_status fqid ≠ some EVENT_TYPE.DELETE)) ||
    decide (model_status fqid = some EVENT_TYPE.CREATE)

/-- `BaseMigration.__init__`: construction fails with
`MigrationSetupException` when `target_migration_index` was left at the
class default `-1`, i.e. was never set by the migration subclass. -/
def BaseMigration.init (target_migration_index : Int) (name : String) :
    Except String Unit :=
  if target_migration_index = -1 then
    .error ("You need to specify target_migration_index of " ++ name)
  else .ok ()

/-- Example events for the documented `order_events` behaviour. -/
def exUpdateB : MigEvent := .update "b/1" [("f", .num 1)]

def exCreateA : MigEvent := .create "a/1" []

def exDeleteFieldsC : MigEvent := .deleteFields "c/1" ["f"]

def exCreateD : MigEvent := .create "d/1" []

/-- Example events for the model-status stickiness witness. -/
def exDeleteA : MigEvent := .delete "a/1"

/-- A model as seen by the in-memory migration reader; the aggregate
queries `min`/`max` read integer field values (their contract returns
`Optional[int]`). -/
abbrev MRModel := List (String × Int)

/-- `MigrationReaderImplementationMemory.filter`: delegates to
`filter_models` from the shared postgres backend, which is not under
`src/` and is therefore kept as an explicit function parameter — every
theorem about the memory reader holds for any such filter engine. It
returns the id-to-model dict of the matching models of the collection. -/
def MigrationReaderMemory.filter {Filt : Type}
    (filter_models : List (String × MRModel) → String → Filt → List (Nat × MRModel))
    (models : List (String × MRModel)) (collection : String) (flt : Filt) :
    List (Nat × MRModel) :=
  filter_models models collection flt

/-- `MigrationReaderImplementationMemory.count`: the size of the filter
result. -/
def MigrationReaderMemory.count {Filt : Type}
    (filter_models : List (String × MRModel) → String → Filt → List (Nat × MRModel))
    (models : List (String × MRModel)) (collection : String) (flt : Filt) : Nat :=
  (MigrationReaderMemory.filter filter_models models collection flt).length

/-- `MigrationReaderImplementationMemory.exists`: whether the count is
positive (`exists` is a Lean keyword, hence the suffix). -/
def MigrationReaderMemory.existsQ {Filt : Type}
    (filter_models : List (String × MRModel) → String → Filt → List (Nat × MRModel))
    (models : List (String × MRModel)) (collection : String) (flt : Filt) : Bool :=
  0 < MigrationReaderMemory.count filter_models models collection flt

/-- Python's builtin `min` on a non-empty list of ints (the empty case is
unreachable: `minmax` guards it). -/
def pyMin : List Int → Int
  | [] => 0
  | x :: xs => xs.foldl Min.min x

/-- Python's builtin `max` on a non-empty list of ints (the empty case is
unreachable: `minmax` guards it). -/
def pyMax : List Int → Int
  | [] => 0
  | x :: xs => xs.foldl Max.max x

/-- `MigrationReaderImplementationMemory.minmax`: collects `model[field]`
for every filtered model containing the field and applies `func` when the
collected list is non-empty, returning `None` otherwise. -/
def MigrationReaderMemory.minmax {Filt : Type}
    (filter_models : List (String × MRModel) → String → Filt → List (Nat × MRModel))
    (models : List (String × MRModel)) (collection : String) (flt : Filt)
    (field : String) (func : List Int → Int) : Option Int :=
  let values := (MigrationReaderMemory.filter filter_models models collection flt).filterMap
    (fun p => assocLookup p.2 field)
  if values.isEmpty then none else some (func values)

/-- `MigrationReaderImplementationMemory.min`. -/
def MigrationReaderMemory.min {Filt : Type}
    (filter_models : List (String × MRModel) → String → Filt → List (Nat × MRModel))
    (models : List (String × MRModel)) (collection : String) (flt : Filt)
    (field : String) : Option Int :=
  MigrationReaderMemory.minmax filter_models models collection flt field pyMin

/-- `MigrationReaderImplementationMemory.max`. -/
def MigrationReaderMemory.max {Filt : Type}
    (filter_models : List (String × MRModel) → String → Filt → List (Nat × MRModel))
    (models : List (String × MRModel)) (collection : String) (flt : Filt)
    (field : String) : Option Int :=
  MigrationReaderMemory.minmax filter_models models collection flt field pyMax

def META_DELETED : String := "meta_deleted"

def META_POSITION : String := "meta_position"

/-- Modelled from the spec: `collection_from_fqid` of
`datastore/shared/util/key_transforms.py` is not under `src/`; per the
glossary an fqid is `collection/id`, so the collection is the part before
the slash. -/
def collection_from_fqid (fqid : String) : String :=
  String.mk (fqid.data.takeWhile (fun c => c ≠ '/'))

/-- Decimal digit parsing of the id part of an fqid. -/
def digitsToNat (l : List Char) : Nat :=
  l.foldl (fun n c => 10 * n + (c.toNat - 48)) 0

/-- Modelled from the spec: the numeric id part of an fqid
`collection/id`. -/
def id_from_fqid (fqid : String) : Int :=
  (digitsToNat ((fqid.data.dropWhile (fun c => c ≠ '/')).drop 1) : Nat)

/-- Modelled from the spec: `collectionfield_from_fqid_and_field` builds
the index key `collection/field` (the collectionfield length bound is
`collection + field`). -/
def collectionfield_from_fqid_and_field (fqid field : String) : String :=
  collection_from_fqid fqid ++ "/" ++ field

/-- A client write-intent (`BaseRequestEvent` from `writer/core`); the
write pipeline itself only reads its fqid, everything else is consumed by
the event translator. -/
structure BaseRequestEvent where
  fqid : String
  payload : JSONValue

/-- A low-level database event as produced by the event translator
(`db_events.py`, not under `src/`): its fqid, event type, serialized
event data (`get_event_data`) and modified-fields dict
(`get_modified_fields`). A `DbCreateEvent` is the variant whose event
type is create. -/
structure BaseDbEvent where
  fqid : String
  event_type : EVENT_TYPE
  event_data : JSONValue
  modified_fields : List (String × JSONValue)

/-- The injected collaborators of `SqlDatabaseBackendService` whose code
is not under `src/`: `EventTranslator.translate` (which also validates
the event preconditions against the prefetched models and may fail) and
the model projection `apply_event_to_models` of `db_events.py`. All
theorems about `insert_events` hold for every such collaborator. -/
structure WriterServices where
  translate : BaseRequestEvent → List (String × ModelRec) →
    Except DsError (List BaseDbEvent)
  apply_event : BaseDbEvent → List (String × ModelRec) → List (String × ModelRec)

/-- `SqlDatabaseBackendService.create_position`: inserts a row into
`positions` with the fixed metadata and returns the serial position. -/
def create_position (migration_index : Int) (information : JSONValue)
    (user_id : Int) (st : DbState) : Nat × DbState :=
  (st.position_seq,
   { st with
       positions := st.positions ++
         [{ position := st.position_seq, migration_index := migration_index,
            user_id := user_id, information := information }],
       position_seq := st.position_seq + 1 })

/-- The batched read of `ReadDatabase.get_many` (an external collaborator
per the spec): the last known full state, including tombstones, of every
requested fqid that has a model row. -/
def readManyAllModels (st : DbState) (fqids : List String) :
    List (String × ModelRec) :=
  fqids.foldl
    (fun acc f =>
      match assocLookup st.models f with
      | some m => assocSet acc f m
      | none => acc)
    []

/-- `SqlDatabaseBackendService.get_models_from_events`: validates every
fqid length against `FQID_MAX_LEN` (raising `InvalidFormat` on the first
oversized one, before any read), then prefetches the models of the
distinct fqids in one batched read. -/
def get_models_from_events (events : List BaseRequestEvent) (st : DbState) :
    Except DsError (List (String × ModelRec)) :=
  match events.find? (fun e => FQID_MAX_LEN < e.fqid.length) with
  | some e => .error (.invalidFormat
      ("fqid " ++ e.fqid ++ " is too long (max: " ++ toString FQID_MAX_LEN ++ ")"))
  | none => .ok (readManyAllModels st ((events.map (fun e => e.fqid)).dedup))

/-- `SqlDatabaseBackendService.apply_event_to_models`: delegates to the
projection of `db_events.py` and stamps `META_POSITION` on the resulting
model (the projection is expected to have created the entry). -/
def apply_event_to_models (svc : WriterServices) (event : BaseDbEvent)
    (models : List (String × ModelRec)) (position : Nat) :
    List (String × ModelRec) :=
  let models2 := svc.apply_event event models
  match assocLookup models2 event.fqid with
  | some m => assocSet models2 event.fqid
      (assocSet m META_POSITION (JSONValue.num position))
  | none => models2

/-- The raw data of one event row to be inserted
(`EventData = Tuple[Position, Fqid, EVENT_TYPE, JSON, int]`). -/
structure EventData where
  position : Nat
  fqid : String
  type : EVENT_TYPE
  data : JSONValue
  weight : Nat

/-- Append one event index to the dict-of-lists
`event_indices_per_modified_collectionfield` (a `defaultdict(list)`). -/
def assocAppend (l : List (String × List Nat)) (k : String) (i : Nat) :
    List (String × List Nat) :=
  match l with
  | [] => [(k, [i])]
  | p :: rest =>
      if p.1 = k then (p.1, p.2 ++ [i]) :: rest else p :: assocAppend rest k i

/-- `modified_models[fqid].update(fields)` on the `defaultdict(dict)` of
modified models. -/
def assocUpdateFields (l : List (String × List (String × JSONValue)))
    (k : String) (fields : List (String × JSONValue)) :
    List (String × List (String × JSONValue)) :=
  match l with
  | [] => [(k, fields.foldl (fun m fv => assocSet m fv.1 fv.2) [])]
  | p :: rest =>
      if p.1 = k then
        (p.1, fields.foldl (fun m fv => assocSet m fv.1 fv.2) p.2) :: rest
      else p :: assocUpdateFields rest k fields

/-- The in-memory accumulator of the translation loop of `insert_events`:
the running weight counter, the raw event rows, the event indices per
modified collectionfield, the maximum id implied per collection, the
prefetched (and progressively projected) models, and the modified fields
per fqid. -/
structure InsertAcc where
  weight : Nat
  events_data : List EventData
  cf_event_indices : List (String × List Nat)
  max_id_per_collection : List (String × Int)
  models : List (String × ModelRec)
  modified_models : List (String × List (String × JSONValue))

/-- The body of the inner loop of `insert_events` for one translated
db-event: bump the weight, record the event row, group the event's
(0-indexed) position-local index under each modified collectionfield,
track the maximum `id + 1` per collection for create events, project the
event onto the prefetched models and record its modified fields. -/
def process_db_event (svc : WriterServices) (position : Nat) (acc : InsertAcc)
    (e : BaseDbEvent) : InsertAcc :=
  let weight := acc.weight + 1
  { weight := weight,
    events_data := acc.events_data ++
      [{ position := position, fqid := e.fqid, type := e.event_type,
         data := e.event_data, weight := weight }],
    cf_event_indices :=
      (e.modified_fields.map
        (fun fv => collectionfield_from_fqid_and_field e.fqid fv.1)).foldl
        (fun m c => assocAppend m c (weight - 1)) acc.cf_event_indices,
    max_id_per_collection :=
      if e.event_type = EVENT_TYPE.CREATE then
        assocSet acc.max_id_per_collection (collection_from_fqid e.fqid)
          (Max.max
            ((assocLookup acc.max_id_per_collection
              (collection_from_fqid e.fqid)).getD 0)
            (id_from_fqid e.fqid + 1))
      else acc.max_id_per_collection,
    models := apply_event_to_models svc e acc.models position,
    modified_models := assocUpdateFields acc.modified_models e.fqid
      e.modified_fields }

/-- The outer loop of `insert_events`: translate each write-intent against
the current models (the translator also validates the event preconditions
and fails the whole operation on a violation) and fold the translated
db-events through `process_db_event`. -/
def process_request_events (svc : WriterServices) (position : Nat) :
    List BaseRequestEvent → InsertAcc → Except DsError InsertAcc
  | [], acc => .ok acc
  | e :: rest, acc =>
    match svc.translate e acc.models with
    | .error err => .error err
    | .ok db_events =>
        process_request_events svc position rest
          (db_events.foldl (process_db_event svc position) acc)

/-- `SqlDatabaseBackendService.update_id_sequences`: bulk upsert
`insert into id_sequences ... on conflict(collection) do update set
id = greatest(id_sequences.id, excluded.id)`. -/
def update_id_sequences (max_id_per_collection : List (String × Int))
    (st : DbState) : DbState :=
  { st with
      id_sequences :=
        max_id_per_collection.foldl
          (fun seqs ci =>
            match assocLookup seqs ci.1 with
            | some old => assocSet seqs ci.1 (Max.max old ci.2)
            | none => seqs ++ [ci])
          st.id_sequences }

/-- `SqlDatabaseBackendService.write_model_updates`: bulk upsert of the
touched model snapshots, full replace keyed by fqid. -/
def write_model_updates (models : List (String × ModelRec)) (st : DbState) :
    DbState :=
  { st with models := models.foldl (fun t fm => assocSet t fm.1 fm.2) st.models }

/-- `SqlDatabaseBackendService.write_events`: bulk insert of the event
rows, returning the generated serial ids in insertion order. -/
def write_events (events_data : List EventData) (st : DbState) :
    List Nat × DbState :=
  let rows := events_data.enum.map
    (fun ie =>
      { id := st.event_id_seq + ie.1, position := ie.2.position,
        fqid := ie.2.fqid, type := ie.2.type, data := ie.2.data,
        weight := ie.2.weight : EventRow })
  (rows.map (fun r => r.id),
   { st with
       events := st.events ++ rows,
       event_id_seq := st.event_id_seq + rows.length })

/-- `SqlDatabaseBackendService.insert_modified_collectionfields_into_db`:
validates every collectionfield length (raising `InvalidFormat` while
building the arguments, before the statement runs), then upserts each
collectionfield row, advancing its recorded position and returning its id
(the existing id on conflict, a fresh serial id otherwise). -/
def insert_modified_collectionfields_into_db
    (modified_collectionfields : List String) (position : Nat) (st : DbState) :
    Except DsError (List Nat × DbState) :=
  match modified_collectionfields.find?
      (fun c => COLLECTIONFIELD_MAX_LEN < c.length) with
  | some c => .error (.invalidFormat
      ("Collection field " ++ c ++ " is too long (max: " ++
        toString COLLECTIONFIELD_MAX_LEN ++ ")"))
  | none =>
    let res := modified_collectionfields.foldl
      (fun (acc : List Nat × List CollectionFieldRow × Nat) c =>
        match acc.2.1.find? (fun r => r.collectionfield = c) with
        | some r =>
            (acc.1 ++ [r.id],
             acc.2.1.map
               (fun r2 => if r2.collectionfield = c then
                 { r2 with position := position } else r2),
             acc.2.2)
        | none =>
            (acc.1 ++ [acc.2.2],
             acc.2.1 ++ [{ id := acc.2.2, collectionfield := c,
                           position := position }],
             acc.2.2 + 1))
      ([], st.collectionfields, st.collectionfield_id_seq)
    .ok (res.1,
      { st with collectionfields := res.2.1, collectionfield_id_seq := res.2.2 })

/-- `SqlDatabaseBackendService.connect_events_and_collection_fields`:
inserts the event-to-collectionfield linking rows reproducing the grouping
of event indices per collectionfield. -/
def connect_events_and_collection_fields (event_ids : List Nat)
    (collectionfield_ids : List Nat) (event_indices_order : List (List Nat))
    (st : DbState) : DbState :=
  { st with
      events_to_collectionfields :=
        st.events_to_collectionfields ++
          (collectionfield_ids.zip event_indices_order).foldl
            (fun args p => args ++ p.2.map (fun idx => (event_ids.getD idx 0, p.1)))
            [] }

/-- `SqlDatabaseBackendService.insert_events`: the write pipeline for one
position. Rejects empty input with `BadCodingError`; creates the position
row; validates and prefetches the referenced models; translates, weights
and projects all events; then issues the id-sequence advancement, model
upserts, event inserts, collectionfield upserts and linking inserts. The
returned pair is the result (or the error raised) together with the
database state as mutated by the statements issued up to that point — the
enclosing transaction of the caller decides whether it commits. -/
def insert_events (svc : WriterServices) (events : List BaseRequestEvent)
    (migration_index : Int) (information : JSONValue) (user_id : Int)
    (st : DbState) :
    Except DsError (Nat × List (String × List (String × JSONValue))) × DbState :=
  if events.isEmpty then (.error .badCoding, st)
  else
    let pr := create_position migration_index information user_id st
    match get_models_from_events events pr.2 with
    | .error e => (.error e, pr.2)
    | .ok models =>
      match process_request_events svc pr.1 events
          { weight := 0, events_data := [], cf_event_indices := [],
            max_id_per_collection := [], models := models,
            modified_models := [] } with
      | .error e => (.error e, pr.2)
      | .ok acc =>
        let st2 := update_id_sequences acc.max_id_per_collection pr.2
        let st3 := write_model_updates acc.models st2
        let wr := write_events acc.events_data st3
        match insert_modified_collectionfields_into_db
            (acc.cf_event_indices.map (fun p => p.1)) pr.1 wr.2 with
        | .error e => (.error e, wr.2)
        | .ok cr =>
          (.ok (pr.1, acc.modified_models),
           connect_events_and_collection_fields wr.1 cr.1
             (acc.cf_event_indices.map (fun p => p.2)) cr.2)

/-- The empty development database: all tables empty, all serial
sequences at 1. -/
def emptyDb : DbState :=
  { positions := [], models := [], events := [], collectionfields := [],
    events_to_collectionfields := [], id_sequences := [],
    position_seq := 1, event_id_seq := 1, collectionfield_id_seq := 1 }

/-- A trivial collaborator pair: a translator producing no db-events and
an identity projection; used for concrete counterexamples where
translation is never reached. -/
def nullServices : WriterServices :=
  { translate := fun _ _ => .ok [], apply_event := fun _ m => m }

/-- A collaborator pair translating every write-intent into one create
db-event with a single modified field `f`; used for concrete witnesses. -/
def createServices : WriterServices :=
  { translate := fun e _ =>
      .ok [{ fqid := e.fqid, event_type := EVENT_TYPE.CREATE,
             event_data := e.payload, modified_fields := [("f", e.payload)] }],
    apply_event := fun e m => assocSet m e.fqid e.modified_fields }

/-- A write-intent whose fqid has 49 characters, one more than
`FQID_MAX_LEN`. -/
def oversizedEvent : BaseRequestEvent :=
  { fqid := "topic/1111111111111111111111111111111111111111111",
    payload := JSONValue.null }

/-- Two well-formed write-intents used for concrete witnesses. -/
def wEvA : BaseRequestEvent := { fqid := "a/1", payload := JSONValue.null }

def wEvB : BaseRequestEvent := { fqid := "b/1", payload := JSONValue.null }

theorem assocLookup_assocSet {α : Type} (l : List (String × α)) (k : String) (v : α) :
    assocLookup (assocSet l k v) k = some v := by
  induction l with
  | nil => simp [assocLookup, assocSet]
  | cons p rest ih =>
    by_cases h : p.1 = k
    · simp [assocLookup, assocSet, h, List.find?]
    · simpa [assocLookup, assocSet, h, List.find?] using ih

/-- C1: for every collection name `c` (non-empty, length at most 32) and
every amount `n ≥ 1`, when the id sequence for `c` stands at `s`,
`reserve_next_ids c n` returns the contiguous block `[s, s+1, ..., s+n-1]`
and leaves the sequence at `s + n`. -/
theorem reserve_next_ids_spec (st : DbState) (c : String) (n s : Int)
    (hn : 1 ≤ n) (hne : c ≠ "") (hlen : c.length ≤ COLLECTION_MAX_LEN)
    (hs : assocLookup st.id_sequences c = some s) :
    (reserve_next_ids st c n).1 =
      .ok ((List.range n.toNat).map (fun i : Nat => s + (i : Int))) ∧
    assocLookup (reserve_next_ids st c n).2.id_sequences c = some (s + n) := by
  have h1 : ¬ n ≤ 0 := by omega
  have h2 : ¬ (COLLECTION_MAX_LEN < c.length ∨ c = "") := by
    push_neg
    exact ⟨hlen, hne⟩
  have hfun : (fun i : Nat => s + (n + 1) - 1 - n + (i : Int)) =
      (fun i : Nat => s + (i : Int)) := by
    funext i
    omega
  rw [reserve_next_ids, if_neg h1, if_neg h2, hs]
  constructor
  · simp only [hfun]
  · rw [assocLookup_assocSet]
    congr 1
    omega

/-- Witness for C1 at the documented example: with the `motion` sequence
at 10, reserving 3 ids returns `[10, 11, 12]` and leaves the sequence at
13, and a subsequent reservation of 1 id returns `[13]`. -/
theorem reserve_next_ids_spec_witness :
    (reserve_next_ids reserveDemoState "motion" 3).1 = .ok [10, 11, 12] ∧
    assocLookup (reserve_next_ids reserveDemoState "motion" 3).2.id_sequences
      "motion" = some 13 ∧
    (reserve_next_ids (reserve_next_ids reserveDemoState "motion" 3).2
      "motion" 1).1 = .ok [13] := by
  have h1 := reserve_next_ids_spec reserveDemoState "motion" 3 10
    (by decide) (by decide) (by decide) (by decide)
  have h2 := reserve_next_ids_spec (reserve_next_ids reserveDemoState "motion" 3).2
    "motion" 1 13 (by decide) (by decide) (by decide) h1.2
  refine ⟨h1.1.trans (congrArg Except.ok (by decide)), h1.2, ?_⟩
  exact h2.1.trans (congrArg Except.ok (by decide))

theorem filter_noop_events_eq_filter (events : List MigEvent) :
    _filter_noop_events events = events.filter (fun e => !(isNoopEvent e)) := by
  induction events with
  | nil => rfl
  | cons e rest ih =>
    cases e with
    | update fqid data =>
        by_cases hd : data.isEmpty <;>
          simp [_filter_noop_events, List.filter_cons, isNoopEvent, hd, ih]
    | listUpdate fqid add remove =>
        by_cases h1 : (add.map Prod.snd).all List.isEmpty <;>
          by_cases h2 : (remove.map Prod.snd).all List.isEmpty <;>
            simp [_filter_noop_events, List.filter_cons, isNoopEvent, h1, h2, ih]
    | deleteFields fqid data =>
        by_cases hd : data.isEmpty <;>
          simp [_filter_noop_events, List.filter_cons, isNoopEvent, hd, ih]
    | create fqid data =>
        simp [_filter_noop_events, List.filter_cons, isNoopEvent, ih]
    | delete fqid =>
        simp [_filter_noop_events, List.filter_cons, isNoopEvent, ih]

/-- C5: the migration noop filter drops exactly the noop events — update
events with an empty data diff, list_update events whose `add` and
`remove` carry no values for any field, delete_fields events with an
empty field list — never drops create or delete events (`isNoopEvent` is
false on them by definition, whatever the payload), and keeps all
surviving events in their original relative order (the result is a
sublist of the input). -/
theorem filter_noop_events_spec (events : List MigEvent) :
    _filter_noop_events events = events.filter (fun e => !(isNoopEvent e)) ∧
    List.Sublist (_filter_noop_events events) events := by
  refine ⟨filter_noop_events_eq_filter events, ?_⟩
  rw [filter_noop_events_eq_filter events]
  exact List.filter_sublist events

theorem orderEventsAux_eq (evs queue : List MigEvent) :
    orderEventsAux evs queue =
      evs.filter (fun e => decide (e.type = EVENT_TYPE.CREATE)) ++ queue ++
        evs.filter (fun e => !decide (e.type = EVENT_TYPE.CREATE)) := by
  induction evs generalizing queue with
  | nil => simp [orderEventsAux]
  | cons e rest ih =>
    by_cases h : e.type = EVENT_TYPE.CREATE
    · simp [orderEventsAux, h, ih, List.filter_cons]
    · simp [orderEventsAux, h, ih, List.filter_cons, List.append_assoc]

/-- C6: `order_events` keeps all create-type events first in their
original relative order, followed by all other events in their original
relative order; the result is a permutation of the input. On the
documented example `[update(B), create(A), delete_fields(C), create(D)]`
it yields `[create(A), create(D), update(B), delete_fields(C)]`. -/
theorem order_events_spec :
    (∀ events : List MigEvent,
        order_events events =
          events.filter (fun e => decide (e.type = EVENT_TYPE.CREATE)) ++
            events.filter (fun e => !decide (e.type = EVENT_TYPE.CREATE)) ∧
        List.Perm (order_events events) events) ∧
    order_events [exUpdateB, exCreateA, exDeleteFieldsC, exCreateD] =
      [exCreateA, exCreateD, exUpdateB, exDeleteFieldsC] := by
  constructor
  · intro events
    have h := orderEventsAux_eq events []
    simp only [List.append_nil] at h
    refine ⟨by simpa [order_events] using h, ?_⟩
    rw [order_events, h]
    exact List.filter_append_perm _ events
  · decide

theorem set_model_status_snoc (evs : List MigEvent) (e : MigEvent) (f : String) :
    _set_model_status (evs ++ [e]) f =
      if (e.type = EVENT_TYPE.CREATE ∨ e.type = EVENT_TYPE.DELETE) ∧
          _set_model_status evs e.fqid ≠ some EVENT_TYPE.DELETE ∧ f = e.fqid then
        some e.type
      else _set_model_status evs f := by
  have hstep : _set_model_status (evs ++ [e]) =
      (if (e.type = EVENT_TYPE.CREATE ∨ e.type = EVENT_TYPE.DELETE) ∧
          _set_model_status evs e.fqid ≠ some EVENT_TYPE.DELETE then
        fun f2 => if f2 = e.fqid then some e.type else _set_model_status evs f2
      else _set_model_status evs) := by
    simp only [_set_model_status, List.foldl_append, List.foldl_cons, List.foldl_nil]
  rw [hstep]
  by_cases h1 : (e.type = EVENT_TYPE.CREATE ∨ e.type = EVENT_TYPE.DELETE) ∧
      _set_model_status evs e.fqid ≠ some EVENT_TYPE.DELETE
  · rw [if_pos h1]
    show (if f = e.fqid then some e.type else _set_model_status evs f) = _
    by_cases h2 : f = e.fqid
    · rw [if_pos h2, if_pos ⟨h1.1, h1.2, h2⟩]
    · rw [if_neg h2, if_neg fun hc => h2 hc.2.2]
  · rw [if_neg h1, if_neg fun hc => h1 ⟨hc.1, hc.2.1⟩]

theorem set_model_status_delete_sticky (evs rest : List MigEvent) (f : String)
    (h : _set_model_status evs f = some EVENT_TYPE.DELETE) :
    _set_model_status (evs ++ rest) f = some EVENT_TYPE.DELETE := by
  induction rest generalizing evs with
  | nil => simpa using h
  | cons r rest2 ih =>
    have step : _set_model_status (evs ++ [r]) f = some EVENT_TYPE.DELETE := by
      rw [set_model_status_snoc]
      by_cases hc : (r.type = EVENT_TYPE.CREATE ∨ r.type = EVENT_TYPE.DELETE) ∧
          _set_model_status evs r.fqid ≠ some EVENT_TYPE.DELETE ∧ f = r.fqid
      · exfalso
        apply hc.2.1
        rw [← hc.2.2]
        exact h
      · rw [if_neg hc]
        exact h
    have hsplit : evs ++ r :: rest2 = (evs ++ [r]) ++ rest2 := by simp
    rw [hsplit]
    exact ih (evs ++ [r]) step

/-- C7: `model_status` is the left-to-right scan of the position's events
in which each create or delete event records its type for its fqid unless
the status already recorded for that fqid is delete (first conjunct: the
exact effect of one more scanned event; events of other types leave the
map unchanged since the condition requires a create or delete type), and
a recorded delete is never overwritten by any later events of the same
position (second conjunct). -/
theorem set_model_status_spec :
    (∀ (evs : List MigEvent) (e : MigEvent) (f : String),
        _set_model_status (evs ++ [e]) f =
          if (e.type = EVENT_TYPE.CREATE ∨ e.type = EVENT_TYPE.DELETE) ∧
              _set_model_status evs e.fqid ≠ some EVENT_TYPE.DELETE ∧ f = e.fqid then
            some e.type
          else _set_model_status evs f) ∧
    (∀ (evs rest : List MigEvent) (f : String),
        _set_model_status evs f = some EVENT_TYPE.DELETE →
          _set_model_status (evs ++ rest) f = some EVENT_TYPE.DELETE) :=
  ⟨set_model_status_snoc, set_model_status_delete_sticky⟩

/-- Witness for C7: a delete of `a/1` followed by a create of `a/1` in the
same position leaves the recorded status at delete. -/
theorem set_model_status_spec_witness :
    _set_model_status ([exDeleteA] ++ [exCreateA]) "a/1" = some EVENT_TYPE.DELETE :=
  set_model_status_spec.2 [exDeleteA] [exCreateA] "a/1" (by decide)

/-- C8: `will_exist` returns true iff the new accessor reports the model
as not deleted and this position's model status for the fqid is not
delete, or that model status is create. -/
theorem will_exist_spec (mnd : String → Bool) (events : List MigEvent) (fqid : String) :
    will_exist mnd (_set_model_status events) fqid = true ↔
      ((mnd fqid = true ∧ _set_model_status events fqid ≠ some EVENT_TYPE.DELETE) ∨
        _set_model_status events fqid = some EVENT_TYPE.CREATE) := by
  simp [will_exist, Bool.or_eq_true, Bool.and_eq_true, decide_eq_true_eq]

/-- C9: constructing a migration whose `target_migration_index` was left
at the unset sentinel `-1` fails with `MigrationSetupException`, and
construction succeeds for every migration whose `target_migration_index`
was set to any other (valid) index. -/
theorem base_migration_init_spec (t : Int) (name : String) :
    (t = -1 → BaseMigration.init t name =
        .error ("You need to specify target_migration_index of " ++ name)) ∧
    (t ≠ -1 → BaseMigration.init t name = .ok ()) := by
  constructor <;> intro h <;> simp [BaseMigration.init, h]

/-- Witness for C9: an unset index fails at construction, index 5
succeeds. -/
theorem base_migration_init_spec_witness :
    BaseMigration.init (-1) "MyMigration" =
        .error ("You need to specify target_migration_index of " ++ "MyMigration") ∧
    BaseMigration.init 5 "MyMigration" = .ok () :=
  ⟨(base_migration_init_spec (-1) "MyMigration").1 rfl,
   (base_migration_init_spec 5 "MyMigration").2 (by decide)⟩

theorem minmax_eq_none_iff {Filt : Type}
    (filter_models : List (String × MRModel) → String → Filt → List (Nat × MRModel))
    (models : List (String × MRModel)) (collection : String) (flt : Filt)
    (field : String) (func : List Int → Int) :
    MigrationReaderMemory.minmax filter_models models collection flt field func = none ↔
      ∀ p ∈ MigrationReaderMemory.filter filter_models models collection flt,
        assocLookup p.2 field = none := by
  rw [MigrationReaderMemory.minmax]
  constructor
  · intro h
    by_cases he : ((MigrationReaderMemory.filter filter_models models collection
        flt).filterMap (fun p => assocLookup p.2 field)).isEmpty
    · intro p hp
      rw [List.isEmpty_iff, List.filterMap_eq_nil_iff] at he
      exact he p hp
    · rw [if_neg he] at h
      cases h
  · intro h
    rw [if_pos]
    rw [List.isEmpty_iff, List.filterMap_eq_nil_iff]
    exact h

/-- C10: for the in-memory `MigrationReader` double, `exists` is true iff
`count` is positive, `count` is the number of models returned by
`filter`, and `min`/`max` return `None` exactly when no model returned by
`filter` contains the queried field — for every collection, every filter
and every underlying filter engine. -/
theorem migration_reader_memory_spec {Filt : Type}
    (filter_models : List (String × MRModel) → String → Filt → List (Nat × MRModel))
    (models : List (String × MRModel)) (collection : String) (flt : Filt)
    (field : String) :
    (MigrationReaderMemory.existsQ filter_models models collection flt = true ↔
      0 < MigrationReaderMemory.count filter_models models collection flt) ∧
    (MigrationReaderMemory.count filter_models models collection flt =
      (MigrationReaderMemory.filter filter_models models collection flt).length) ∧
    (MigrationReaderMemory.min filter_models models collection flt field = none ↔
      ∀ p ∈ MigrationReaderMemory.filter filter_models models collection flt,
        assocLookup p.2 field = none) ∧
    (MigrationReaderMemory.max filter_models models collection flt field = none ↔
      ∀ p ∈ MigrationReaderMemory.filter filter_models models collection flt,
        assocLookup p.2 field = none) := by
  refine ⟨?_, rfl, ?_, ?_⟩
  · simp [MigrationReaderMemory.existsQ]
  · exact minmax_eq_none_iff filter_models models collection flt field pyMin
  · exact minmax_eq_none_iff filter_models models collection flt field pyMax

/-- C2: calling `insert_events` with an empty event list raises
`BadCodingError` and performs no database mutation whatsoever: the state
is returned unchanged — no position, model, event, collectionfield, link
or id-sequence row is written. -/
theorem insert_events_empty (svc : WriterServices) (migration_index : Int)
    (information : JSONValue) (user_id : Int) (st : DbState) :
    insert_events svc [] migration_index information user_id st =
      (.error .badCoding, st) := rfl

/-- Counterexample to C3 as stated: on an oversized fqid `insert_events`
does fail with the format error before any translation, but the position
row insert has already been issued by then — `create_position` runs
before the fqid validation — so "no database row of any kind (including
the position row) is written" does not hold at the statement level:
starting from the empty database, the positions table holds one row when
the error is raised. -/
theorem insert_events_oversized_counterexample :
    (insert_events nullServices [oversizedEvent] 1 JSONValue.null 0 emptyDb).1 =
      .error (.invalidFormat
        ("fqid " ++ oversizedEvent.fqid ++ " is too long (max: " ++
          toString FQID_MAX_LEN ++ ")")) ∧
    (insert_events nullServices [oversizedEvent] 1 JSONValue.null 0
        emptyDb).2.positions.length = 1 := by
  exact ⟨rfl, rfl⟩

/-- C3 (amended): when some event's fqid exceeds `FQID_MAX_LEN`,
`insert_events` fails with a format error before any event translation,
model application, or model/event/collectionfield/link/id-sequence write;
the only statement already issued is the position row insert of
`create_position` (rolled back with the enclosing transaction). -/
theorem insert_events_oversized_fqid (svc : WriterServices)
    (events : List BaseRequestEvent) (migration_index : Int)
    (information : JSONValue) (user_id : Int) (st : DbState)
    (hne : events ≠ [])
    (hbad : ∃ e ∈ events, FQID_MAX_LEN < e.fqid.length) :
    (∃ msg, (insert_events svc events migration_index information user_id st).1 =
      .error (.invalidFormat msg)) ∧
    (insert_events svc events migration_index information user_id st).2 =
      { st with
          positions := st.positions ++
            [{ position := st.position_seq, migration_index := migration_index,
               user_id := user_id, information := information }],
          position_seq := st.position_seq + 1 } := by
  obtain ⟨e0, he0, hlen⟩ := hbad
  have hfind : (events.find? (fun e => FQID_MAX_LEN < e.fqid.length)).isSome := by
    rw [List.find?_isSome]
    exact ⟨e0, he0, by simpa using hlen⟩
  obtain ⟨e1, he1⟩ := Option.isSome_iff_exists.mp hfind
  have hemp : ¬ events.isEmpty = true := by
    cases events with
    | nil => exact absurd rfl hne
    | cons a l => simp
  have hget : get_models_from_events events
      (create_position migration_index information user_id st).2 =
      .error (.invalidFormat ("fqid " ++ e1.fqid ++ " is too long (max: " ++
        toString FQID_MAX_LEN ++ ")")) := by
    rw [get_models_from_events, he1]
  have hmain : insert_events svc events migration_index information user_id st =
      (.error (.invalidFormat ("fqid " ++ e1.fqid ++ " is too long (max: " ++
        toString FQID_MAX_LEN ++ ")")),
       (create_position migration_index information user_id st).2) := by
    simp only [insert_events]
    rw [if_neg hemp, hget]
  refine ⟨⟨_, by rw [hmain]⟩, ?_⟩
  rw [hmain]
  rfl

/-- Witness for C3 (amended) at a concrete input: a single write-intent
with a 49-character fqid against the empty database. -/
theorem insert_events_oversized_fqid_witness :
    (∃ msg, (insert_events nullServices [oversizedEvent] 1 JSONValue.null 0
        emptyDb).1 = .error (.invalidFormat msg)) ∧
    (insert_events nullServices [oversizedEvent] 1 JSONValue.null 0 emptyDb).2 =
      { emptyDb with
          positions := [{ position := 1, migration_index := 1, user_id := 0,
                          information := JSONValue.null }],
          position_seq := 2 } := by
  have h := insert_events_oversized_fqid nullServices [oversizedEvent] 1
    JSONValue.null 0 emptyDb (List.cons_ne_nil _ _)
    ⟨oversizedEvent, by simp, by decide⟩
  exact ⟨h.1, h.2⟩

theorem create_position_events (mi : Int) (info : JSONValue) (uid : Int)
    (st : DbState) : (create_position mi info uid st).2.events = st.events := rfl

theorem update_id_sequences_events (m : List (String × Int)) (st : DbState) :
    (update_id_sequences m st).events = st.events := rfl

theorem write_model_updates_events (m : List (String × ModelRec)) (st : DbState) :
    (write_model_updates m st).events = st.events := rfl

theorem connect_events_and_collection_fields_events (a b : List Nat)
    (c : List (List Nat)) (st : DbState) :
    (connect_events_and_collection_fields a b c st).events = st.events := rfl

theorem write_events_events (events_data : List EventData) (st : DbState) :
    (write_events events_data st).2.events = st.events ++
      events_data.enum.map
        (fun ie =>
          { id := st.event_id_seq + ie.1, position := ie.2.position,
            fqid := ie.2.fqid, type := ie.2.type, data := ie.2.data,
            weight := ie.2.weight : EventRow }) := rfl

theorem insert_modified_collectionfields_ok_events (cfs : List String)
    (position : Nat) (st : DbState) (cr : List Nat × DbState)
    (h : insert_modified_collectionfields_into_db cfs position st = .ok cr) :
    cr.2.events = st.events := by
  unfold insert_modified_collectionfields_into_db at h
  split at h
  · cases h
  · cases h
    rfl

theorem enum_map_snd_proj {α β : Type} (l : List α) (g : α → β) :
    l.enum.map (fun ie => g ie.2) = l.map g := by
  rw [show (fun ie : Nat × α => g ie.2) = g ∘ Prod.snd from rfl, ← List.map_map,
    List.enum_map_snd]

theorem process_db_event_inv (svc : WriterServices) (position : Nat)
    (acc : InsertAcc) (e : BaseDbEvent)
    (h1 : acc.events_data.map (fun ed => ed.weight) = List.range' 1 acc.weight)
    (h2 : ∀ ed ∈ acc.events_data, ed.position = position) :
    ((process_db_event svc position acc e).events_data.map (fun ed => ed.weight) =
      List.range' 1 (process_db_event svc position acc e).weight) ∧
    ∀ ed ∈ (process_db_event svc position acc e).events_data,
      ed.position = position := by
  constructor
  · show (acc.events_data ++
      [{ position := position, fqid := e.fqid, type := e.event_type,
         data := e.event_data, weight := acc.weight + 1 : EventData }]).map
        (fun ed => ed.weight) = List.range' 1 (acc.weight + 1)
    rw [List.map_append, h1, List.range'_concat]
    simp [Nat.add_comm]
  · intro ed hed
    have hed2 : ed ∈ acc.events_data ++
        [{ position := position, fqid := e.fqid, type := e.event_type,
           data := e.event_data, weight := acc.weight + 1 : EventData }] := hed
    rcases List.mem_append.mp hed2 with h | h
    · exact h2 ed h
    · rw [List.mem_singleton.mp h]

theorem foldl_process_db_event_inv (svc : WriterServices) (position : Nat)
    (l : List BaseDbEvent) :
    ∀ acc : InsertAcc,
      acc.events_data.map (fun ed => ed.weight) = List.range' 1 acc.weight →
      (∀ ed ∈ acc.events_data, ed.position = position) →
      ((l.foldl (process_db_event svc position) acc).events_data.map
          (fun ed => ed.weight) =
        List.range' 1 (l.foldl (process_db_event svc position) acc).weight) ∧
      ∀ ed ∈ (l.foldl (process_db_event svc position) acc).events_data,
        ed.position = position := by
  induction l with
  | nil => exact fun acc h1 h2 => ⟨h1, h2⟩
  | cons e rest ih =>
    intro acc h1 h2
    have h := process_db_event_inv svc position acc e h1 h2
    simpa only [List.foldl_cons] using
      ih (process_db_event svc position acc e) h.1 h.2

theorem process_request_events_inv (svc : WriterServices) (position : Nat)
    (evs : List BaseRequestEvent) :
    ∀ acc acc2 : InsertAcc,
      process_request_events svc position evs acc = .ok acc2 →
      acc.events_data.map (fun ed => ed.weight) = List.range' 1 acc.weight →
      (∀ ed ∈ acc.events_data, ed.position = position) →
      (acc2.events_data.map (fun ed => ed.weight) = List.range' 1 acc2.weight ∧
        ∀ ed ∈ acc2.events_data, ed.position = position) := by
  induction evs with
  | nil =>
    intro acc acc2 hok h1 h2
    unfold process_request_events at hok
    cases hok
    exact ⟨h1, h2⟩
  | cons e rest ih =>
    intro acc acc2 hok h1 h2
    unfold process_request_events at hok
    cases htr : svc.translate e acc.models with
    | error err =>
      rw [htr] at hok
      cases hok
    | ok db_events =>
      rw [htr] at hok
      have h := foldl_process_db_event_inv svc position db_events acc h1 h2
      exact ih _ _ hok h.1 h.2

theorem insert_events_ok_shape (svc : WriterServices)
    (events : List BaseRequestEvent) (mi : Int) (info : JSONValue) (uid : Int)
    (st : DbState) (p : Nat) (mm : List (String × List (String × JSONValue)))
    (st2 : DbState)
    (h : insert_events svc events mi info uid st = (.ok (p, mm), st2)) :
    ∃ models acc cr,
      get_models_from_events events (create_position mi info uid st).2 =
        .ok models ∧
      process_request_events svc (create_position mi info uid st).1 events
        { weight := 0, events_data := [], cf_event_indices := [],
          max_id_per_collection := [], models := models,
          modified_models := [] } = .ok acc ∧
      insert_modified_collectionfields_into_db
        (acc.cf_event_indices.map (fun q => q.1)) (create_position mi info uid st).1
        (write_events acc.events_data
          (write_model_updates acc.models
            (update_id_sequences acc.max_id_per_collection
              (create_position mi info uid st).2))).2 = .ok cr ∧
      p = (create_position mi info uid st).1 ∧
      mm = acc.modified_models ∧
      st2 = connect_events_and_collection_fields
        (write_events acc.events_data
          (write_model_updates acc.models
            (update_id_sequences acc.max_id_per_collection
              (create_position mi info uid st).2))).1 cr.1
        (acc.cf_event_indices.map (fun q => q.2)) cr.2 := by
  simp only [insert_events] at h
  by_cases hemp : events.isEmpty
  · rw [if_pos hemp] at h
    simp at h
  · rw [if_neg hemp] at h
    split at h
    · simp at h
    · rename_i models hget
      split at h
      · simp at h
      · rename_i acc hacc
        split at h
        · simp at h
        · rename_i cr hcf
          rw [Prod.mk.injEq, Except.ok.injEq, Prod.mk.injEq] at h
          exact ⟨models, acc, cr, hget, hacc, hcf,
            h.1.1.symm, h.1.2.symm, h.2.symm⟩

theorem write_events_spec (events_data : List EventData) (st : DbState) :
    ∃ rows : List EventRow,
      (write_events events_data st).2.events = st.events ++ rows ∧
      rows.map (fun r => r.weight) = events_data.map (fun ed => ed.weight) ∧
      rows.map (fun r => r.position) = events_data.map (fun ed => ed.position) ∧
      rows.length = events_data.length := by
  refine ⟨_, write_events_events events_data st, ?_, ?_, ?_⟩
  · rw [List.map_map]
    exact enum_map_snd_proj events_data (fun ed => ed.weight)
  · rw [List.map_map]
    exact enum_map_snd_proj events_data (fun ed => ed.position)
  · rw [List.length_map, List.enum_length]

/-- C4: for every successful call to `insert_events`, the events table is
extended by exactly the event rows of the new position, whose weights in
persisted order form the sequence 1, 2, ..., N from the single running
counter shared across all translated write-intents; when the pre-state
holds no row at or beyond the next position (true of every reachable
database), the rows carrying the new position are exactly the new ones,
so within the new position the weights start at 1 and are strictly
increasing. -/
theorem insert_events_weights (svc : WriterServices)
    (events : List BaseRequestEvent) (migration_index : Int)
    (information : JSONValue) (user_id : Int) (st : DbState) (p : Nat)
    (mm : List (String × List (String × JSONValue)))
    (hok : (insert_events svc events migration_index information user_id st).1 =
      .ok (p, mm))
    (hfresh : ∀ r ∈ st.events, r.position < st.position_seq) :
    ∃ newRows : List EventRow,
      (insert_events svc events migration_index information user_id st).2.events =
        st.events ++ newRows ∧
      newRows.map (fun r => r.weight) = List.range' 1 newRows.length ∧
      (∀ r ∈ newRows, r.position = p) ∧
      ((insert_events svc events migration_index information user_id
          st).2.events.filter (fun r => r.position = p)).map (fun r => r.weight) =
        List.range' 1 newRows.length := by
  have hpair : insert_events svc events migration_index information user_id st =
      (.ok (p, mm),
       (insert_events svc events migration_index information user_id st).2) := by
    rw [← hok]
  obtain ⟨models, acc, cr, hget, hacc, hcf, hp, hmm, hst2⟩ :=
    insert_events_ok_shape svc events migration_index information user_id st p mm
      _ hpair
  have hinv := process_request_events_inv svc
    (create_position migration_index information user_id st).1 events
    { weight := 0, events_data := [], cf_event_indices := [],
      max_id_per_collection := [], models := models, modified_models := [] }
    acc hacc rfl (fun ed hed => absurd hed (List.not_mem_nil ed))
  obtain ⟨R, hRev, hRw, hRp, hRlen⟩ := write_events_spec acc.events_data
    (write_model_updates acc.models
      (update_id_sequences acc.max_id_per_collection
        (create_position migration_index information user_id st).2))
  have hps : p = st.position_seq := hp
  have hEvEq : (insert_events svc events migration_index information user_id
      st).2.events = st.events ++ R := by
    rw [hst2, connect_events_and_collection_fields_events,
      insert_modified_collectionfields_ok_events _ _ _ _ hcf, hRev]
    rfl
  have hedlen : acc.events_data.length = acc.weight := by
    have h := congrArg List.length hinv.1
    simpa using h
  have hRlen2 : R.length = acc.weight := hRlen.trans hedlen
  have hRw2 : R.map (fun r => r.weight) = List.range' 1 R.length := by
    rw [hRw, hinv.1, hRlen2]
  have hPos : ∀ r ∈ R, r.position = p := by
    intro r hr
    have h1 : r.position ∈ R.map (fun r2 => r2.position) :=
      List.mem_map_of_mem _ hr
    rw [hRp] at h1
    obtain ⟨ed, hed, heq⟩ := List.mem_map.mp h1
    rw [← heq, hinv.2 ed hed]
    exact hp.symm
  have hFilterNil : st.events.filter (fun r => decide (r.position = p)) = [] := by
    rw [List.filter_eq_nil_iff]
    intro r hr
    have h2 := hfresh r hr
    simp only [decide_eq_true_eq]
    rw [hps]
    omega
  have hFilterSelf : R.filter (fun r => decide (r.position = p)) = R := by
    rw [List.filter_eq_self]
    intro r hr
    simp only [decide_eq_true_eq]
    exact hPos r hr
  refine ⟨R, hEvEq, hRw2, hPos, ?_⟩
  rw [hEvEq, List.filter_append, hFilterNil, hFilterSelf, List.nil_append, hRw2]

/-- Witness for C4 at a concrete input: two write-intents, each translated
to one create event by `createServices`, against the empty database. -/
theorem insert_events_weights_witness :
    ∃ newRows : List EventRow,
      (insert_events createServices [wEvA, wEvB] 1 JSONValue.null 0
          emptyDb).2.events = emptyDb.events ++ newRows ∧
      newRows.map (fun r => r.weight) = List.range' 1 newRows.length ∧
      (∀ r ∈ newRows, r.position = 1) ∧
      ((insert_events createServices [wEvA, wEvB] 1 JSONValue.null 0
          emptyDb).2.events.filter (fun r => r.position = 1)).map
        (fun r => r.weight) = List.range' 1 newRows.length :=
  insert_events_weights createServices [wEvA, wEvB] 1 JSONValue.null 0 emptyDb 1
    [("a/1", [("f", JSONValue.null)]), ("b/1", [("f", JSONValue.null)])]
    (by rfl) (fun r hr => absurd hr (List.not_mem_nil r))
